import Mathlib

/-!
# companies-backend: the request handlers of `server.js`

A shallow embedding of the two route handlers `POST /add_company` and
`GET /get_companies`, with the MongoDB collection they talk to as explicit
state.  What the environment decides (the server clock, the identifier the
driver generates, a failure of the store) is an explicit argument of the
handler, and so is what the model takes from the query engine of the store
as given.  Console output is not part of the HTTP exchange and is left out.
-/

namespace CompaniesBackend

/-! ## JavaScript values -/

/-- The JavaScript values a parsed JSON body can hold, with `undefined` for
the result of reading a property that is not there.  `num` carries the
integral numbers: the handlers only ever test a number for being zero. -/
inductive JsVal where
  | undefined : JsVal
  | null : JsVal
  | bool (b : Bool) : JsVal
  | num (n : Int) : JsVal
  | str (s : String) : JsVal
  | arr (items : List JsVal) : JsVal
  | obj (props : List (String × JsVal)) : JsVal

/-- The object `req.body` that `express.json()` hands to the handler, as its
list of properties. -/
abbrev Body := List (String × JsVal)

/-- Property read `data.key`: the value of the property, `undefined` when the
object has none of that name. -/
def getProp (data : Body) (key : String) : JsVal :=
  (data.lookup key).getD JsVal.undefined

/-- JavaScript truthiness (`ToBoolean`): `undefined`, `null`, `false`, `0`
and the empty string are falsy, every array and object is truthy. -/
def truthy : JsVal → Bool
  | .undefined => false
  | .null => false
  | .bool b => b
  | .num n => n != 0
  | .str s => s != ""
  | .arr _ => true
  | .obj _ => true

/-- The operator `a || b`: `a` when it is truthy, `b` otherwise. -/
def jsOr (a b : JsVal) : JsVal :=
  if truthy a then a else b

mutual
/-- Structural equality of two values: same kind, same content, the elements
of a sequence and the properties of an object in the same order. -/
def JsVal.beq : JsVal → JsVal → Bool
  | .undefined, .undefined => true
  | .null, .null => true
  | .bool a, .bool b => a == b
  | .num a, .num b => a == b
  | .str a, .str b => a == b
  | .arr a, .arr b => JsVal.beqList a b
  | .obj a, .obj b => JsVal.beqProps a b
  | _, _ => false
/-- Structural equality of two sequences of values. -/
def JsVal.beqList : List JsVal → List JsVal → Bool
  | [], [] => true
  | x :: xs, y :: ys => JsVal.beq x y && JsVal.beqList xs ys
  | _, _ => false
/-- Structural equality of two property lists. -/
def JsVal.beqProps : List (String × JsVal) → List (String × JsVal) → Bool
  | [], [] => true
  | (k, x) :: xs, (l, y) :: ys => k == l && JsVal.beq x y && JsVal.beqProps xs ys
  | _, _ => false
end

/-! ## The collection -/

/-- A MongoDB `ObjectId`, identified with its 24-digit hexadecimal text. -/
structure ObjectId where
  hex : String
deriving DecidableEq

/-- The method `ObjectId.prototype.toString`. -/
def ObjectId.toString (o : ObjectId) : String := o.hex

/-- An `Error` object thrown by the driver or by the runtime. -/
structure JsError where
  message : String
deriving DecidableEq

/-- The object literal `companyDoc` of the create handler: five fields,
`dateAdded` in milliseconds since the epoch. -/
structure CompanyDoc where
  companyName : JsVal
  country : JsVal
  companyWebsite : JsVal
  availablePositions : JsVal
  dateAdded : Nat

/-- A document of the collection: a `companyDoc` with the `_id` it was
inserted under. -/
structure Doc where
  _id : ObjectId
  companyName : JsVal
  country : JsVal
  companyWebsite : JsVal
  availablePositions : JsVal
  dateAdded : Nat

/-- The stored form of a `companyDoc` inserted under identifier `oid`. -/
def Doc.ofCompanyDoc (oid : ObjectId) (c : CompanyDoc) : Doc :=
  { _id := oid
    companyName := c.companyName
    country := c.country
    companyWebsite := c.companyWebsite
    availablePositions := c.availablePositions
    dateAdded := c.dateAdded }

/-- The error the runtime throws for a method call on the unset
`collection` variable. -/
def typeErrorUndefined : JsError :=
  ⟨"Cannot read properties of undefined"⟩

/-- The error of the store for an `_id` that is already in the collection
(the unique index on `_id`). -/
def duplicateKeyError : JsError :=
  ⟨"E11000 duplicate key error"⟩

/-- The method `insertOne` of a collection.  `oid` is the identifier the
driver generates for the document and `fault` an error of the store, if one
strikes.  On success the document is appended under `oid` and `oid` is the
`insertedId`; a failed insert leaves the collection as it was. -/
def insertOne (oid : ObjectId) (fault : Option JsError) (docs : List Doc)
    (c : CompanyDoc) : Except JsError (List Doc × ObjectId) :=
  match fault with
  | some e => .error e
  | none =>
    if docs.any (fun d => d._id == oid) then .error duplicateKeyError
    else .ok (docs ++ [Doc.ofCompanyDoc oid c], oid)

/-- The call `collection.insertOne(companyDoc)` on the module variable
`collection`, which is `none` while it is unset. -/
def collectionInsertOne (oid : ObjectId) (fault : Option JsError)
    (collection : Option (List Doc)) (c : CompanyDoc) :
    Except JsError (List Doc × ObjectId) :=
  match collection with
  | none => .error typeErrorUndefined
  | some docs => insertOne oid fault docs c

/-! ## `POST /add_company` -/

/-- An HTTP response: status code and JSON body. -/
structure Response where
  status : Nat
  body : JsVal

/-- The body `{ message: text }`. -/
def messageBody (text : String) : JsVal :=
  .obj [("message", .str text)]

/-- The 400 response of the create handler. -/
def missingFields : Response :=
  ⟨400, messageBody "Missing required fields: companyName and country"⟩

/-- The 201 response of the create handler. -/
def created : Response :=
  ⟨201, messageBody "Company added successfully to Database"⟩

/-- The 500 response of both handlers. -/
def unexpectedError : Response :=
  ⟨500, messageBody "An unexpected error occurred"⟩

/-- The object literal `companyDoc` built from the request body `data` at
server time `now` (`new Date()`). -/
def companyDoc (now : Nat) (data : Body) : CompanyDoc :=
  { companyName := getProp data "companyName"
    country := getProp data "country"
    companyWebsite := jsOr (getProp data "companyWebsite") (.str "")
    availablePositions := jsOr (getProp data "availablePositions") (.arr [])
    dateAdded := now }

/-- The handler of `POST /add_company`: the response and the collection
after the request.  The `catch` block answers every error alike. -/
def addCompany (now : Nat) (oid : ObjectId) (fault : Option JsError)
    (collection : Option (List Doc)) (data : Body) :
    Response × Option (List Doc) :=
  if !truthy (getProp data "companyName") || !truthy (getProp data "country") then
    (missingFields, collection)
  else
    match collectionInsertOne oid fault collection (companyDoc now data) with
    | .ok (docs, _) => (created, some docs)
    | .error _ => (unexpectedError, collection)

/-! ## `GET /get_companies` -/

/-- The values of the three query parameters the list handler reads from
`req.query`: `undefined` for a parameter that is absent, a string for one
that occurs once, a sequence for a repeated one, an object for a bracketed
one (`position[key]=value`). -/
structure ReqQuery where
  company : JsVal
  country : JsVal
  position : JsVal

/-- The filter object `query` handed to `find`.  `companyName` and `country`
hold the value `v` of a condition `{ $regex: v, $options: "i" }`,
`availablePositions` the value given for that field; `none` is a key the
filter does not have. -/
structure Query where
  companyName : Option JsVal
  country : Option JsVal
  availablePositions : Option JsVal

/-- The filter `{}`. -/
def Query.empty : Query := ⟨none, none, none⟩

/-- The guard `if (v)` of the filter construction: the value when it is
truthy, no key otherwise. -/
def supplied (v : JsVal) : Option JsVal :=
  if truthy v then some v else none

/-- Construction of `query` from the request parameters. -/
def buildQuery (rq : ReqQuery) : Query :=
  { companyName := supplied rq.company
    country := supplied rq.country
    availablePositions := supplied rq.position }

/-! ### The query engine of the store

The store reads a `$regex` value as a Perl-compatible regular expression.
The fragment modelled here has patterns made of alternatives separated by
`|`, each a sequence of literal characters and dots.  How the store reads a
pattern with any other metacharacter, how it folds letter case under option
`i`, how it reads an operator object other than `{ $ne: text }` and in which
order it returns records of the same `dateAdded` is taken as given. -/

/-- The order of `sort({ dateAdded: -1 })`: `a` may come before `b`. -/
def newerFirst (a b : Doc) : Prop := b.dateAdded ≤ a.dateAdded

instance : DecidableRel newerFirst := fun a b => Nat.decLe b.dateAdded a.dateAdded

instance : IsTotal Doc newerFirst := ⟨fun a b => Nat.le_total b.dateAdded a.dateAdded⟩

instance : IsTrans Doc newerFirst := ⟨fun _ _ _ hab hbc => Nat.le_trans hbc hab⟩

/-- What the model takes from the store as given.  `fold` sends a character
to the representative of its class under caseless matching; `regexExt` is the
reading of a pattern outside the modelled fragment, an error when the store
rejects the pattern; `operatorExt` is the reading of an operator object
outside the modelled fragment; `sort` is `sort({ dateAdded: -1 })`, which
rearranges the records into descending `dateAdded`. -/
structure Engine where
  fold : Char → Char
  regexExt : String → Except JsError (List Char → Bool)
  operatorExt : List (String × JsVal) → Except JsError (JsVal → Bool)
  sort : List Doc → List Doc
  sort_perm : ∀ docs : List Doc, (sort docs).Perm docs
  sort_sorted : ∀ docs : List Doc,
    (sort docs).Pairwise fun a b => b.dateAdded ≤ a.dateAdded

/-- The case folding of the examples: an ASCII letter goes to its lower case,
and so do the two characters outside ASCII that match an ASCII letter under
caseless matching, the long s (U+017F) and the Kelvin sign (U+212A).  It is
the folding of the store as far as patterns of ASCII characters go. -/
def exampleFold (c : Char) : Char :=
  if c.toNat = 0x17F then 's'
  else if c.toNat = 0x212A then 'k'
  else c.toLower

/-- An engine for the examples: it folds case by `exampleFold`, rejects every
pattern and operator outside the modelled fragment and keeps records of the
same `dateAdded` in the order of their insertion. -/
def exampleEngine : Engine :=
  { fold := exampleFold
    regexExt := fun _ => .error ⟨"Regular expression is invalid"⟩
    operatorExt := fun _ => .error ⟨"unknown operator"⟩
    sort := fun docs => docs.insertionSort newerFirst
    sort_perm := fun docs => List.perm_insertionSort newerFirst docs
    sort_sorted := fun docs => List.sorted_insertionSort newerFirst docs }

/-- An atom of a pattern: a literal character or `.`. -/
inductive Atom where
  | lit (c : Char) : Atom
  | dot : Atom
deriving DecidableEq

/-- The metacharacters of the pattern language outside a character class. -/
def metaChars : List Char := "\\^$.[|()*+?\x7b".toList

/-- The atom a pattern character stands for: the dot, or the character
itself when it is not a metacharacter; `none` for a metacharacter. -/
def atomOf (c : Char) : Option Atom :=
  if c = '.' then some Atom.dot
  else if metaChars.contains c then none
  else some (Atom.lit c)

/-- The alternatives of a pattern, each a sequence of atoms; `none` when the
pattern is outside the fragment. -/
def compileChars : List Char → Option (List (List Atom))
  | [] => some [[]]
  | c :: cs =>
    match compileChars cs with
    | none => none
    | some alts =>
      if c = '|' then some ([] :: alts)
      else
        match atomOf c with
        | none => none
        | some a => some ((a :: alts.headD []) :: alts.tail)

/-- Whether an atom accepts a character under option `i`: a literal accepts
the characters of its caseless class, the dot every character but the line
feed. -/
def atomAccepts (fold : Char → Char) : Atom → Char → Bool
  | .lit p, c => fold p == fold c
  | .dot, c => c != '\n'

/-- Whether the atoms match at the start of the subject. -/
def matchAt (fold : Char → Char) : List Atom → List Char → Bool
  | [], _ => true
  | _ :: _, [] => false
  | a :: atoms, c :: cs => atomAccepts fold a c && matchAt fold atoms cs

/-- Whether the (unanchored) sequence of atoms matches somewhere in the
subject. -/
def regexSearch (fold : Char → Char) (atoms : List Atom) : List Char → Bool
  | [] => matchAt fold atoms []
  | c :: cs => matchAt fold atoms (c :: cs) || regexSearch fold atoms cs

/-- The error of the store for a pattern with a null character. -/
def embeddedNullError : JsError :=
  ⟨"Regular expression cannot contain an embedded null byte"⟩

/-- The error of the store for a `$regex` value that is not a string. -/
def regexNotStringError : JsError :=
  ⟨"$regex has to be a string"⟩

/-- The matcher of a pattern under option `i`: an error for a pattern with a
null character, which the store rejects; in the fragment, the subjects that
one of the alternatives matches somewhere. -/
def compilePattern (E : Engine) (pattern : String) :
    Except JsError (List Char → Bool) :=
  if pattern.toList.contains (Char.ofNat 0) then .error embeddedNullError
  else
    match compileChars pattern.toList with
    | some alts => .ok fun subject => alts.any fun atoms => regexSearch E.fold atoms subject
    | none => E.regexExt pattern

/-- Whether a stored value satisfies a `$regex` condition with the given
matcher: a string that it accepts, or an array with such a string among its
elements. -/
def regexMatchesValue (accepts : List Char → Bool) : JsVal → Bool
  | .str s => accepts s.toList
  | .arr items => items.any fun item =>
      match item with
      | .str s => accepts s.toList
      | _ => false
  | _ => false

/-- The predicate on the field value of a condition
`{ $regex: v, $options: "i" }`; an absent condition accepts all, a value
that is not a string is an error of the store. -/
def regexCond (E : Engine) (value : Option JsVal) : Except JsError (JsVal → Bool) :=
  match value with
  | none => .ok fun _ => true
  | some (.str pattern) => (compilePattern E pattern).map regexMatchesValue
  | some _ => .error regexNotStringError

/-- Whether a stored value satisfies the equality condition `{ field: x }`:
the value `x` itself, or an array with `x` among its elements. -/
def equalsOrContains (x : JsVal) (v : JsVal) : Bool :=
  JsVal.beq v x ||
    match v with
    | .arr items => items.any fun item => JsVal.beq item x
    | _ => false

/-- Whether the store reads an object as an operator expression: its first
key starts with `$`. -/
def isOperatorObject : List (String × JsVal) → Bool
  | (key, _) :: _ => key.toList.head? == some '$'
  | [] => false

/-- The operand `x` of an operator object `{ $ne: x }` with a string `x`. -/
def neOperand : List (String × JsVal) → Option String
  | [(key, .str x)] => if key = "$ne" then some x else none
  | _ => none

/-- The predicate on the field value of the condition `{ field: x }`; an
absent condition accepts all.  An operator object `{ $ne: text }` accepts
what the equality on `text` does not; any other value, an object that is not
an operator expression included, is an equality condition. -/
def positionCond (E : Engine) (value : Option JsVal) : Except JsError (JsVal → Bool) :=
  match value with
  | none => .ok fun _ => true
  | some (.obj props) =>
    if isOperatorObject props then
      match neOperand props with
      | some x => .ok fun v => !equalsOrContains (.str x) v
      | none => E.operatorExt props
    else .ok (equalsOrContains (.obj props))
  | some x => .ok (equalsOrContains x)

/-- The documents a filter selects: those that satisfy every condition the
filter has; an error when the store rejects one of the conditions. -/
def queryPredicate (E : Engine) (q : Query) : Except JsError (Doc → Bool) :=
  match regexCond E q.companyName, regexCond E q.country,
    positionCond E q.availablePositions with
  | .ok f, .ok g, .ok h =>
    .ok fun d => f d.companyName && g d.country && h d.availablePositions
  | .error e, _, _ => .error e
  | _, .error e, _ => .error e
  | _, _, .error e => .error e

/-- The cursor `find(query).sort({ dateAdded: -1 }).toArray()` on a working
store. -/
def findSorted (E : Engine) (q : Query) (docs : List Doc) : Except JsError (List Doc) :=
  (queryPredicate E q).map fun p => E.sort (docs.filter p)

/-! ### `Date.prototype.toISOString` -/

/-- The decimal digit of the units of `n`. -/
def digitChar (n : Nat) : Char :=
  match n % 10 with
  | 0 => '0'
  | 1 => '1'
  | 2 => '2'
  | 3 => '3'
  | 4 => '4'
  | 5 => '5'
  | 6 => '6'
  | 7 => '7'
  | 8 => '8'
  | _ => '9'

/-- The last two decimal digits of `n`. -/
def pad2 (n : Nat) : List Char := [digitChar (n / 10), digitChar n]

/-- The last three decimal digits of `n`. -/
def pad3 (n : Nat) : List Char := digitChar (n / 100) :: pad2 n

/-- The last four decimal digits of `n`. -/
def pad4 (n : Nat) : List Char := digitChar (n / 1000) :: pad3 n

/-- The last six decimal digits of `n`. -/
def pad6 (n : Nat) : List Char := digitChar (n / 100000) :: digitChar (n / 10000) :: pad4 n

/-- Year, month and day of the day number `z` counted from 1970-01-01 in
the proleptic Gregorian calendar. -/
def civilFromDays (z : Nat) : Nat × Nat × Nat :=
  let z := z + 719468
  let era := z / 146097
  let doe := z % 146097
  let yoe := (doe - doe / 1460 + doe / 36524 - doe / 146096) / 365
  let doy := doe - (365 * yoe + yoe / 4 - yoe / 100)
  let mp := (5 * doy + 2) / 153
  let d := doy - (153 * mp + 2) / 5 + 1
  let m := if mp < 10 then mp + 3 else mp - 9
  let y := yoe + era * 400
  (if m ≤ 2 then y + 1 else y, m, d)

/-- The year of an ISO text: four digits up to 9999, a sign and six digits
beyond. -/
def yearText (y : Nat) : List Char :=
  if y ≤ 9999 then pad4 y else '+' :: pad6 y

/-- Month, day, time of day and zone of the ISO text of the time `t`:
`-MM-DDTHH:mm:ss.sssZ`. -/
def monthToZone (month day t : Nat) : List Char :=
  '-' :: pad2 month ++ '-' :: pad2 day ++ 'T' :: pad2 (t / 3600000 % 24) ++
    ':' :: pad2 (t / 60000 % 60) ++ ':' :: pad2 (t / 1000 % 60) ++
    '.' :: pad3 (t % 1000) ++ ['Z']

/-- The characters of the ISO text of the time `t`, in milliseconds since
the epoch. -/
def isoChars (t : Nat) : List Char :=
  let ymd := civilFromDays (t / 86400000)
  yearText ymd.1 ++ monthToZone ymd.2.1 ymd.2.2 t

/-- The method `Date.prototype.toISOString` for a time since the epoch. -/
def toISOString (t : Nat) : String := String.mk (isoChars t)

/-! ### The handler -/

/-- The element of `formattedCompanies` for a document: the spread of the
document with `_id` replaced by its text and `dateAdded` by its ISO text. -/
def formatCompany (doc : Doc) : JsVal :=
  .obj [("_id", .str doc._id.toString),
        ("companyName", doc.companyName),
        ("country", doc.country),
        ("companyWebsite", doc.companyWebsite),
        ("availablePositions", doc.availablePositions),
        ("dateAdded", .str (toISOString doc.dateAdded))]

/-- The call `collection.find(query).sort({ dateAdded: -1 }).toArray()` on
the module variable `collection`; `fault` is an error of the store, if one
strikes. -/
def collectionFind (E : Engine) (fault : Option JsError)
    (collection : Option (List Doc)) (q : Query) : Except JsError (List Doc) :=
  match collection with
  | none => .error typeErrorUndefined
  | some docs =>
    match fault with
    | some e => .error e
    | none => findSorted E q docs

/-- The handler of `GET /get_companies`: the response.  The handler only
reads the collection; the `catch` block answers every error alike. -/
def getCompanies (E : Engine) (fault : Option JsError)
    (collection : Option (List Doc)) (rq : ReqQuery) : Response :=
  match collectionFind E fault collection (buildQuery rq) with
  | .ok companies => ⟨200, .arr (companies.map formatCompany)⟩
  | .error _ => unexpectedError

/-! ## The service as a transition system -/

/-- A request to the service together with what the environment decides
while it is handled. -/
inductive Request where
  | addCompany (now : Nat) (oid : ObjectId) (fault : Option JsError) (data : Body) : Request
  | getCompanies (fault : Option JsError) (rq : ReqQuery) : Request

/-- The collection after a request. -/
def step (collection : Option (List Doc)) : Request → Option (List Doc)
  | .addCompany now oid fault data => (addCompany now oid fault collection data).2
  | .getCompanies _ _ => collection

/-- The collection after a sequence of requests. -/
def run (collection : Option (List Doc)) (requests : List Request) :
    Option (List Doc) :=
  requests.foldl step collection

/-- The documents of the collection, none while the variable is unset. -/
def stored (collection : Option (List Doc)) : List Doc :=
  collection.getD []

/-! ## Reading a response -/

/-- Property read `v.key` on a value of a response. -/
def JsVal.prop (v : JsVal) (key : String) : JsVal :=
  match v with
  | .obj props => getProp props key
  | _ => .undefined

/-- Whether the characters are month, day, time of day and zone of an ISO
text: `-MM-DDTHH:mm:ss.sssZ`. -/
def isoTail : List Char → Bool
  | [c0, m1, m2, c1, d1, d2, c2, h1, h2, c3, n1, n2, c4, s1, s2, c5, f1, f2, f3, c6] =>
    c0 == '-' && c1 == '-' && c2 == 'T' && c3 == ':' && c4 == ':' && c5 == '.' &&
    c6 == 'Z' &&
    [m1, m2, d1, d2, h1, h2, n1, n2, s1, s2, f1, f2, f3].all Char.isDigit
  | _ => false

/-- Whether a text is an ISO-8601 date-time in UTC: `YYYY-MM-DDTHH:mm:ss.sssZ`,
or the same with an expanded year `+YYYYYY`. -/
def isIso8601 (s : String) : Bool :=
  if s.toList.head? = some '+' then
    ((s.toList.drop 1).take 6).all Char.isDigit && isoTail (s.toList.drop 7)
  else
    (s.toList.take 4).all Char.isDigit && isoTail (s.toList.drop 4)

/-! ## The claims in the words of the specification -/

/-- The text `s` contains `q` as a substring when letter case is ignored:
after folding, the characters of `q` occur in a row in `s`. -/
def containsIgnoreCase (fold : Char → Char) (q s : String) : Prop :=
  q.toList.map fold <:+: s.toList.map fold

instance (fold : Char → Char) (q s : String) : Decidable (containsIgnoreCase fold q s) :=
  inferInstanceAs (Decidable (q.toList.map fold <:+: s.toList.map fold))

/-- The value is a string that contains `q` when letter case is ignored, or
a sequence that has such a string as an element. -/
def valueContains (fold : Char → Char) (q : String) : JsVal → Prop
  | .str s => containsIgnoreCase fold q s
  | .arr items => ∃ s, JsVal.str s ∈ items ∧ containsIgnoreCase fold q s
  | _ => False

/-- The value is a sequence that has `x` as an element. -/
def hasElement (x : JsVal) : JsVal → Prop
  | .arr items => x ∈ items
  | _ => False

/-- The value is `x` itself or a sequence that has `x` as an element. -/
def isOrHasElement (x : JsVal) (v : JsVal) : Prop :=
  v = x ∨ hasElement x v

/-- A character that a pattern takes literally: no metacharacter and not the
null character. -/
def plainChar (c : Char) : Bool :=
  !metaChars.contains c && c != Char.ofNat 0

/-- A text without metacharacters and null characters. -/
def plainPattern (q : String) : Bool := q.toList.all plainChar

/-- A pattern made of texts without metacharacters and null characters,
separated by `|`. -/
def alternativesPattern (q : String) : Bool :=
  q.toList.all fun c => c == '|' || plainChar c

/-- The texts that the bars of a pattern separate. -/
def alternatives : List Char → List (List Char)
  | [] => [[]]
  | c :: cs =>
    if c = '|' then [] :: alternatives cs
    else (c :: (alternatives cs).headD []) :: (alternatives cs).tail

/-- The value is a non-empty string. -/
def isNonEmptyString : JsVal → Prop
  | .str s => s ≠ ""
  | _ => False

/-- The value is a sequence of strings. -/
def isStringSequence : JsVal → Prop
  | .arr items => ∀ v ∈ items, ∃ s, v = JsVal.str s
  | _ => False

/-! ## Lemmas on the create handler -/

theorem addCompany_of_falsy (now : Nat) (oid : ObjectId) (fault : Option JsError)
    (collection : Option (List Doc)) (data : Body)
    (h : truthy (getProp data "companyName") = false ∨
      truthy (getProp data "country") = false) :
    addCompany now oid fault collection data = (missingFields, collection) := by
  unfold addCompany
  rcases h with h | h <;> simp [h]

theorem addCompany_of_truthy (now : Nat) (oid : ObjectId) (fault : Option JsError)
    (collection : Option (List Doc)) (data : Body)
    (hn : truthy (getProp data "companyName") = true)
    (hc : truthy (getProp data "country") = true) :
    addCompany now oid fault collection data =
      match collectionInsertOne oid fault collection (companyDoc now data) with
      | .ok (docs, _) => (created, some docs)
      | .error _ => (unexpectedError, collection) := by
  unfold addCompany
  simp [hn, hc]

theorem insertOne_ok_iff (oid : ObjectId) (fault : Option JsError) (docs : List Doc)
    (c : CompanyDoc) (r : List Doc × ObjectId) :
    insertOne oid fault docs c = .ok r ↔
      fault = none ∧ (∀ d ∈ docs, d._id ≠ oid) ∧
        r = (docs ++ [Doc.ofCompanyDoc oid c], oid) := by
  unfold insertOne
  cases fault with
  | some e => simp
  | none =>
    by_cases h : docs.any (fun d => d._id == oid) = true
    · rw [if_pos h]
      simp only [List.any_eq_true, beq_iff_eq] at h
      obtain ⟨d, hd, hid⟩ := h
      constructor
      · intro hh; cases hh
      · rintro ⟨-, hfresh, -⟩
        exact absurd hid (hfresh d hd)
    · rw [if_neg h]
      simp only [List.any_eq_true, beq_iff_eq, not_exists, not_and] at h
      constructor
      · intro hh
        injection hh with hh
        exact ⟨rfl, h, hh.symm⟩
      · rintro ⟨-, -, rfl⟩
        rfl

/-! ## The claims on the create handler -/

/-- C1: whenever `companyName` or `country` is falsy in the body (missing,
which reads as `undefined`, or the empty string, or any other falsy value),
`POST /add_company` answers 400 with the body
`{message: "Missing required fields: companyName and country"}` and the
collection after the request is the collection before it, whatever the state
of the store. -/
theorem addCompany_missing_field_400 (now : Nat) (oid : ObjectId)
    (fault : Option JsError) (collection : Option (List Doc)) (data : Body)
    (h : truthy (getProp data "companyName") = false ∨
      truthy (getProp data "country") = false) :
    (addCompany now oid fault collection data).1.status = 400 ∧
    (addCompany now oid fault collection data).1.body =
      .obj [("message", .str "Missing required fields: companyName and country")] ∧
    (addCompany now oid fault collection data).2 = collection := by
  rw [addCompany_of_falsy now oid fault collection data h]
  exact ⟨rfl, rfl, rfl⟩

/-- The theorem of C1 at the body that has a `country` and no `companyName`. -/
theorem addCompany_missing_field_400_witness :
    (truthy (getProp [("country", .str "US")] "companyName") = false ∨
      truthy (getProp [("country", .str "US")] "country") = false) ∧
    (addCompany 0 ⟨"a"⟩ none (some []) [("country", .str "US")]).1.status = 400 ∧
    (addCompany 0 ⟨"a"⟩ none (some []) [("country", .str "US")]).1.body =
      .obj [("message", .str "Missing required fields: companyName and country")] ∧
    (addCompany 0 ⟨"a"⟩ none (some []) [("country", .str "US")]).2 = some [] :=
  ⟨Or.inl rfl,
    addCompany_missing_field_400 0 ⟨"a"⟩ none (some []) [("country", .str "US")]
      (Or.inl rfl)⟩

/-- C9: with a working store (both inserts succeed), submitting the same
payload twice answers 201 both times and leaves the collection with two more
documents, whose identifiers differ. -/
theorem addCompany_twice_two_records (now₁ now₂ : Nat) (oid₁ oid₂ : ObjectId)
    (fault₁ fault₂ : Option JsError) (docs : List Doc) (data : Body)
    (r₁ r₂ : List Doc × ObjectId)
    (hn : truthy (getProp data "companyName") = true)
    (hc : truthy (getProp data "country") = true)
    (h₁ : insertOne oid₁ fault₁ docs (companyDoc now₁ data) = .ok r₁)
    (h₂ : insertOne oid₂ fault₂ r₁.1 (companyDoc now₂ data) = .ok r₂) :
    (addCompany now₁ oid₁ fault₁ (some docs) data).1.status = 201 ∧
    (addCompany now₂ oid₂ fault₂
      (addCompany now₁ oid₁ fault₁ (some docs) data).2 data).1.status = 201 ∧
    ∃ a b : Doc,
      (addCompany now₂ oid₂ fault₂
        (addCompany now₁ oid₁ fault₁ (some docs) data).2 data).2 =
          some (docs ++ [a, b]) ∧
      (docs ++ [a, b]).length = docs.length + 2 ∧
      a._id ≠ b._id := by
  have e₁ : addCompany now₁ oid₁ fault₁ (some docs) data = (created, some r₁.1) := by
    rw [addCompany_of_truthy _ _ _ _ _ hn hc]
    simp only [collectionInsertOne, h₁]
  have e₂ : addCompany now₂ oid₂ fault₂ (some r₁.1) data = (created, some r₂.1) := by
    rw [addCompany_of_truthy _ _ _ _ _ hn hc]
    simp only [collectionInsertOne, h₂]
  rw [e₁]
  simp only [e₂]
  obtain ⟨-, -, hr₁⟩ := (insertOne_ok_iff _ _ _ _ _).1 h₁
  obtain ⟨-, hfresh, hr₂⟩ := (insertOne_ok_iff _ _ _ _ _).1 h₂
  refine ⟨rfl, rfl, Doc.ofCompanyDoc oid₁ (companyDoc now₁ data),
    Doc.ofCompanyDoc oid₂ (companyDoc now₂ data), ?_, by simp, ?_⟩
  · rw [hr₂, hr₁]
    simp
  · have hmem : Doc.ofCompanyDoc oid₁ (companyDoc now₁ data) ∈ r₁.1 := by
      rw [hr₁]
      simp
    exact hfresh _ hmem

/-- The theorem of C9 at the empty collection, with the same body submitted
at times 1 and 2 under two identifiers. -/
theorem addCompany_twice_two_records_witness :
    (addCompany 1 ⟨"a1"⟩ none (some [])
      [("companyName", .str "Acme"), ("country", .str "US")]).1.status = 201 ∧
    (addCompany 2 ⟨"a2"⟩ none
      (addCompany 1 ⟨"a1"⟩ none (some [])
        [("companyName", .str "Acme"), ("country", .str "US")]).2
      [("companyName", .str "Acme"), ("country", .str "US")]).1.status = 201 ∧
    ∃ a b : Doc,
      (addCompany 2 ⟨"a2"⟩ none
        (addCompany 1 ⟨"a1"⟩ none (some [])
          [("companyName", .str "Acme"), ("country", .str "US")]).2
        [("companyName", .str "Acme"), ("country", .str "US")]).2 =
          some ([] ++ [a, b]) ∧
      (([] : List Doc) ++ [a, b]).length = ([] : List Doc).length + 2 ∧
      a._id ≠ b._id :=
  addCompany_twice_two_records 1 2 ⟨"a1"⟩ ⟨"a2"⟩ none none []
    [("companyName", .str "Acme"), ("country", .str "US")]
    ([Doc.ofCompanyDoc ⟨"a1"⟩
        (companyDoc 1 [("companyName", .str "Acme"), ("country", .str "US")])], ⟨"a1"⟩)
    ([Doc.ofCompanyDoc ⟨"a1"⟩
        (companyDoc 1 [("companyName", .str "Acme"), ("country", .str "US")]),
      Doc.ofCompanyDoc ⟨"a2"⟩
        (companyDoc 2 [("companyName", .str "Acme"), ("country", .str "US")])], ⟨"a2"⟩)
    rfl rfl rfl rfl

/-- C7: for a body that passes validation, when the `collection` variable is
unset or the store call throws (any error `e`), both handlers answer with
status 500 and the fixed body `{message: "An unexpected error occurred"}`,
and the create handler leaves the collection as it was; in particular the
response is the same for any two errors, and an insert that fails for any
other reason (such as a duplicate identifier) is answered the same way. -/
theorem store_failure_generic_500 (E : Engine) (now : Nat) (oid : ObjectId)
    (fault : Option JsError) (collection : Option (List Doc)) (data : Body)
    (rq : ReqQuery)
    (hn : truthy (getProp data "companyName") = true)
    (hc : truthy (getProp data "country") = true)
    (hfail : collection = none ∨ ∃ e, fault = some e) :
    addCompany now oid fault collection data = (unexpectedError, collection) ∧
    getCompanies E fault collection rq = unexpectedError ∧
    unexpectedError.status = 500 ∧
    unexpectedError.body = .obj [("message", .str "An unexpected error occurred")] ∧
    (∀ e e' : JsError,
      (addCompany now oid (some e) collection data).1 =
        (addCompany now oid (some e') collection data).1 ∧
      getCompanies E (some e) collection rq = getCompanies E (some e') collection rq) ∧
    (∀ e, collectionInsertOne oid fault collection (companyDoc now data) = .error e →
      addCompany now oid fault collection data = (unexpectedError, collection)) := by
  have hpost : ∀ (f : Option JsError) (e : JsError),
      collectionInsertOne oid f collection (companyDoc now data) = .error e →
      addCompany now oid f collection data = (unexpectedError, collection) := by
    intro f e he
    rw [addCompany_of_truthy _ _ _ _ _ hn hc, he]
  have hthrow : ∀ e : JsError, ∃ e',
      collectionInsertOne oid (some e) collection (companyDoc now data) = .error e' := by
    intro e
    cases collection with
    | none => exact ⟨_, rfl⟩
    | some docs => exact ⟨e, rfl⟩
  have hget : ∀ e : JsError, getCompanies E (some e) collection rq = unexpectedError := by
    intro e
    cases collection <;> rfl
  refine ⟨?_, ?_, rfl, rfl, ?_, hpost fault⟩
  · rcases hfail with h | ⟨e, h⟩
    · subst h
      exact hpost fault _ rfl
    · subst h
      obtain ⟨e', he'⟩ := hthrow e
      exact hpost _ _ he'
  · rcases hfail with h | ⟨e, h⟩
    · subst h
      rfl
    · subst h
      exact hget e
  · intro e e'
    obtain ⟨a, ha⟩ := hthrow e
    obtain ⟨b, hb⟩ := hthrow e'
    rw [hpost _ _ ha, hpost _ _ hb, hget e, hget e']
    exact ⟨rfl, rfl⟩

/-- The theorem of C7 at an unset `collection` variable. -/
theorem store_failure_generic_500_witness :
    addCompany 5 ⟨"a1"⟩ (some ⟨"connection reset"⟩) none
        [("companyName", .str "Acme"), ("country", .str "US")] =
      (unexpectedError, none) ∧
    getCompanies exampleEngine (some ⟨"connection reset"⟩) none
        ⟨.str "acme", .undefined, .undefined⟩ = unexpectedError :=
  have h := store_failure_generic_500 exampleEngine 5 ⟨"a1"⟩ (some ⟨"connection reset"⟩)
    none [("companyName", .str "Acme"), ("country", .str "US")]
    ⟨.str "acme", .undefined, .undefined⟩ rfl rfl (Or.inl rfl)
  ⟨h.1, h.2.1⟩

/-! ## The record handed to the store -/

theorem getProp_cons_of_ne (key other : String) (v : JsVal) (data : Body)
    (h : key ≠ other) : getProp ((other, v) :: data) key = getProp data key := by
  unfold getProp
  have hb : (key == other) = false := by simpa using h
  simp [List.lookup, hb]

theorem truthy_jsOr (a b : JsVal) (hb : truthy b = true) : truthy (jsOr a b) = true := by
  unfold jsOr
  by_cases h : truthy a = true
  · rw [if_pos h]; exact h
  · rw [if_neg h]; exact hb

/-- C8 fails as stated: the body below supplies `companyWebsite: false`, and
the record built from it carries the empty string, not the submitted value. -/
theorem companyDoc_website_falsy_counterexample :
    truthy (getProp [("companyName", .str "Acme"), ("country", .str "US"),
      ("companyWebsite", .bool false)] "companyName") = true ∧
    truthy (getProp [("companyName", .str "Acme"), ("country", .str "US"),
      ("companyWebsite", .bool false)] "country") = true ∧
    List.lookup "companyWebsite" [("companyName", JsVal.str "Acme"),
      ("country", JsVal.str "US"), ("companyWebsite", JsVal.bool false)] =
        some (JsVal.bool false) ∧
    (companyDoc 0 [("companyName", .str "Acme"), ("country", .str "US"),
      ("companyWebsite", .bool false)]).companyWebsite = .str "" ∧
    (companyDoc 0 [("companyName", .str "Acme"), ("country", .str "US"),
      ("companyWebsite", .bool false)]).companyWebsite ≠ .bool false := by
  refine ⟨rfl, rfl, rfl, rfl, ?_⟩
  have h : (companyDoc 0 [("companyName", .str "Acme"), ("country", .str "US"),
      ("companyWebsite", .bool false)]).companyWebsite = .str "" := rfl
  rw [h]
  exact fun hh => JsVal.noConfusion hh

/-- C8, amended: the record handed to the store has the five fields of
`companyDoc`; `companyName` and `country` are the submitted values,
`companyWebsite` is the submitted value when that is truthy and the empty
string otherwise, `availablePositions` is the submitted value when that is
truthy and the empty sequence otherwise, `dateAdded` is the server time.  The
record depends on the body through these four properties only: a
client-supplied `dateAdded` or any other extra property changes nothing.  On
a working store the collection grows by exactly this record. -/
theorem companyDoc_fields (now : Nat) (data : Body) :
    companyDoc now data =
      { companyName := getProp data "companyName"
        country := getProp data "country"
        companyWebsite :=
          if truthy (getProp data "companyWebsite") then getProp data "companyWebsite"
          else .str ""
        availablePositions :=
          if truthy (getProp data "availablePositions") then
            getProp data "availablePositions"
          else .arr []
        dateAdded := now } ∧
    (∀ (key : String) (v : JsVal),
      key ∉ ["companyName", "country", "companyWebsite", "availablePositions"] →
      companyDoc now ((key, v) :: data) = companyDoc now data) ∧
    (∀ v : JsVal, companyDoc now (("dateAdded", v) :: data) = companyDoc now data) ∧
    (∀ (oid : ObjectId) (docs : List Doc),
      truthy (getProp data "companyName") = true →
      truthy (getProp data "country") = true →
      (∀ d ∈ docs, d._id ≠ oid) →
      addCompany now oid none (some docs) data =
        (created, some (docs ++ [Doc.ofCompanyDoc oid (companyDoc now data)]))) := by
  have hkey : ∀ (key : String) (v : JsVal),
      key ∉ ["companyName", "country", "companyWebsite", "availablePositions"] →
      companyDoc now ((key, v) :: data) = companyDoc now data := by
    intro key v hk
    simp only [List.mem_cons, List.mem_singleton, not_or, List.not_mem_nil,
      or_false] at hk
    obtain ⟨h1, h2, h3, h4⟩ := hk
    unfold companyDoc
    rw [getProp_cons_of_ne _ _ _ _ (Ne.symm h1), getProp_cons_of_ne _ _ _ _ (Ne.symm h2),
      getProp_cons_of_ne _ _ _ _ (Ne.symm h3), getProp_cons_of_ne _ _ _ _ (Ne.symm h4)]
  refine ⟨rfl, hkey, fun v => hkey _ v (by decide), ?_⟩
  intro oid docs hn hc hfresh
  rw [addCompany_of_truthy _ _ _ _ _ hn hc]
  have h := (insertOne_ok_iff oid none docs (companyDoc now data)
    (docs ++ [Doc.ofCompanyDoc oid (companyDoc now data)], oid)).2 ⟨rfl, hfresh, rfl⟩
  simp only [collectionInsertOne, h]

/-! ## The invariant of the collection -/

theorem step_stored (collection : Option (List Doc)) (r : Request) :
    step collection r = collection ∨
    ∃ (now : Nat) (oid : ObjectId) (data : Body) (docs : List Doc),
      truthy (getProp data "companyName") = true ∧
      truthy (getProp data "country") = true ∧
      collection = some docs ∧
      step collection r = some (docs ++ [Doc.ofCompanyDoc oid (companyDoc now data)]) := by
  cases r with
  | getCompanies fault rq => exact Or.inl rfl
  | addCompany now oid fault data =>
    simp only [step]
    by_cases hn : truthy (getProp data "companyName") = true
    · by_cases hc : truthy (getProp data "country") = true
      · rw [addCompany_of_truthy _ _ _ _ _ hn hc]
        cases collection with
        | none => exact Or.inl rfl
        | some docs =>
          simp only [collectionInsertOne]
          cases h : insertOne oid fault docs (companyDoc now data) with
          | error e => exact Or.inl rfl
          | ok res =>
            obtain ⟨-, -, hres⟩ := (insertOne_ok_iff _ _ _ _ _).1 h
            subst hres
            exact Or.inr ⟨now, oid, data, docs, hn, hc, rfl, rfl⟩
      · rw [addCompany_of_falsy _ _ _ _ _ (Or.inr (by simpa using hc))]
        exact Or.inl rfl
    · rw [addCompany_of_falsy _ _ _ _ _ (Or.inl (by simpa using hn))]
      exact Or.inl rfl

theorem run_invariant (P : Doc → Prop)
    (hP : ∀ (now : Nat) (oid : ObjectId) (data : Body),
      truthy (getProp data "companyName") = true →
      truthy (getProp data "country") = true →
      P (Doc.ofCompanyDoc oid (companyDoc now data)))
    (requests : List Request) :
    ∀ collection : Option (List Doc), (∀ d ∈ stored collection, P d) →
      ∀ d ∈ stored (run collection requests), P d := by
  induction requests with
  | nil => intro collection h; exact h
  | cons r rest ih =>
    intro collection h
    show ∀ d ∈ stored (run (step collection r) rest), P d
    apply ih
    rcases step_stored collection r with hs | ⟨now, oid, data, docs, hn, hc, hcol, hs⟩
    · rw [hs]; exact h
    · rw [hs]
      subst hcol
      intro d hd
      simp only [stored, Option.getD_some, List.mem_append, List.mem_singleton] at hd h
      rcases hd with hd | hd
      · exact h d hd
      · rw [hd]; exact hP now oid data hn hc

theorem stored_prefix_step (collection : Option (List Doc)) (r : Request) :
    stored collection <+: stored (step collection r) := by
  rcases step_stored collection r with hs | ⟨now, oid, data, docs, -, -, hcol, hs⟩
  · rw [hs]
  · rw [hs, hcol]
    exact List.prefix_append _ _

theorem stored_prefix_run (requests : List Request) :
    ∀ collection : Option (List Doc),
      stored collection <+: stored (run collection requests) := by
  induction requests with
  | nil => intro collection; exact List.prefix_refl _
  | cons r rest ih =>
    intro collection
    exact (stored_prefix_step collection r).trans (ih (step collection r))

theorem truthy_str_ne_empty (v : JsVal) (h : truthy v = true) (s : String)
    (hs : v = .str s) : s ≠ "" := by
  subst hs
  simpa [truthy] using h

/-- C10 fails as stated: from the empty store, one create request whose body
has a number as `companyName`, `true` as `country` and a string as
`availablePositions` stores a record whose `companyName` and `country` are
not strings and whose `availablePositions` is not a sequence. -/
theorem stored_types_counterexample :
    ∃ d ∈ stored (run (some [])
        [Request.addCompany 0 ⟨"a1"⟩ none
          [("companyName", .num 7), ("country", .bool true),
            ("availablePositions", .str "dev")]]),
      ¬ isNonEmptyString d.companyName ∧ ¬ isNonEmptyString d.country ∧
        ¬ isStringSequence d.availablePositions := by
  have h : stored (run (some [])
      [Request.addCompany 0 ⟨"a1"⟩ none
        [("companyName", .num 7), ("country", .bool true),
          ("availablePositions", .str "dev")]]) =
      [⟨⟨"a1"⟩, .num 7, .bool true, .str "", .str "dev", 0⟩] := rfl
  rw [h]
  exact ⟨_, List.mem_singleton.2 rfl, fun hh => hh, fun hh => hh, fun hh => hh⟩

/-- C10, amended: from the empty store, after any sequence of create and list
requests with arbitrary bodies and queries, every stored record has a truthy
`companyName` and a truthy `country` (neither missing, `null`, `false`, `0`
nor the empty string; one that is a string is non-empty) and a truthy
`availablePositions`; no type is enforced on them.  No request changes or
removes a stored record: a list request leaves the collection unchanged, a
create request leaves it unchanged or appends one record, so the collection
before any sequence of requests is an initial segment of the one after. -/
theorem stored_records_invariant (requests : List Request) :
    (∀ d ∈ stored (run (some []) requests),
      truthy d.companyName = true ∧ truthy d.country = true ∧
      truthy d.availablePositions = true ∧
      (∀ s, d.companyName = .str s → s ≠ "") ∧
      (∀ s, d.country = .str s → s ≠ "")) ∧
    (∀ (collection : Option (List Doc)) (fault : Option JsError) (rq : ReqQuery),
      step collection (.getCompanies fault rq) = collection) ∧
    (∀ (collection : Option (List Doc)) (now : Nat) (oid : ObjectId)
      (fault : Option JsError) (data : Body),
      step collection (.addCompany now oid fault data) = collection ∨
      ∃ d, step collection (.addCompany now oid fault data) =
        some (stored collection ++ [d])) ∧
    (∀ (collection : Option (List Doc)) (r : Request),
      stored collection <+: stored (step collection r)) ∧
    (∀ collection : Option (List Doc),
      stored collection <+: stored (run collection requests)) := by
  refine ⟨?_, fun _ _ _ => rfl, ?_, stored_prefix_step, stored_prefix_run requests⟩
  · refine run_invariant _ ?_ requests (some []) ?_
    · intro now oid data hn hc
      refine ⟨hn, hc, ?_, truthy_str_ne_empty _ hn, truthy_str_ne_empty _ hc⟩
      exact truthy_jsOr _ _ rfl
    · intro d hd
      simp [stored] at hd
  · intro collection now oid fault data
    rcases step_stored collection (.addCompany now oid fault data) with
      hs | ⟨now', oid', data', docs, -, -, hcol, hs⟩
    · exact Or.inl hs
    · subst hcol
      exact Or.inr ⟨_, hs⟩

/-! ## Lemmas on the list handler -/

theorem getCompanies_working (E : Engine) (docs : List Doc) (rq : ReqQuery) :
    getCompanies E none (some docs) rq =
      match findSorted E (buildQuery rq) docs with
      | .ok companies => ⟨200, .arr (companies.map formatCompany)⟩
      | .error _ => unexpectedError := rfl

theorem findSorted_empty (E : Engine) (docs : List Doc) :
    findSorted E Query.empty docs = .ok (E.sort docs) := by
  simp [findSorted, queryPredicate, regexCond, positionCond, Query.empty, Except.map]

theorem getCompanies_no_filter (E : Engine) (docs : List Doc) :
    getCompanies E none (some docs) ⟨.undefined, .undefined, .undefined⟩ =
      ⟨200, .arr ((E.sort docs).map formatCompany)⟩ := by
  rw [getCompanies_working]
  have hq : buildQuery ⟨.undefined, .undefined, .undefined⟩ = Query.empty := rfl
  rw [hq, findSorted_empty]

theorem getCompanies_conjunction (E : Engine) (docs : List Doc) (rq : ReqQuery) :
    getCompanies E none (some docs) rq =
      match regexCond E (supplied rq.company), regexCond E (supplied rq.country),
        positionCond E (supplied rq.position) with
      | .ok f, .ok g, .ok h =>
        ⟨200, .arr ((E.sort (docs.filter fun d =>
          f d.companyName && g d.country && h d.availablePositions)).map formatCompany)⟩
      | _, _, _ => unexpectedError := by
  rw [getCompanies_working]
  unfold findSorted queryPredicate buildQuery
  dsimp only
  cases regexCond E (supplied rq.company) <;> cases regexCond E (supplied rq.country) <;>
    cases positionCond E (supplied rq.position) <;> rfl

theorem getCompanies_of_conds (E : Engine) (docs : List Doc) (rq : ReqQuery)
    (f g h : JsVal → Bool)
    (hf : regexCond E (supplied rq.company) = .ok f)
    (hg : regexCond E (supplied rq.country) = .ok g)
    (hh : positionCond E (supplied rq.position) = .ok h) :
    getCompanies E none (some docs) rq =
      ⟨200, .arr ((E.sort (docs.filter fun d =>
        f d.companyName && g d.country && h d.availablePositions)).map formatCompany)⟩ := by
  rw [getCompanies_conjunction, hf, hg, hh]

theorem digitChar_isDigit (n : Nat) : (digitChar n).isDigit = true := by
  unfold digitChar
  split <;> rfl

theorem digitChar_ne_plus (n : Nat) : digitChar n ≠ '+' := by
  unfold digitChar
  split <;> simp

theorem isoTail_of_digits (m1 m2 d1 d2 h1 h2 n1 n2 s1 s2 f1 f2 f3 : Char)
    (hm1 : m1.isDigit = true) (hm2 : m2.isDigit = true) (hd1 : d1.isDigit = true)
    (hd2 : d2.isDigit = true) (hh1 : h1.isDigit = true) (hh2 : h2.isDigit = true)
    (hn1 : n1.isDigit = true) (hn2 : n2.isDigit = true) (hs1 : s1.isDigit = true)
    (hs2 : s2.isDigit = true) (hf1 : f1.isDigit = true) (hf2 : f2.isDigit = true)
    (hf3 : f3.isDigit = true) :
    isoTail ['-', m1, m2, '-', d1, d2, 'T', h1, h2, ':', n1, n2, ':', s1, s2, '.',
      f1, f2, f3, 'Z'] = true := by
  simp only [isoTail, List.all_cons, List.all_nil, beq_self_eq_true, Bool.and_true,
    Bool.true_and, hm1, hm2, hd1, hd2, hh1, hh2, hn1, hn2, hs1, hs2, hf1, hf2, hf3]

theorem isoTail_monthToZone (month day t : Nat) :
    isoTail (monthToZone month day t) = true := by
  exact isoTail_of_digits _ _ _ _ _ _ _ _ _ _ _ _ _ (digitChar_isDigit _)
    (digitChar_isDigit _) (digitChar_isDigit _) (digitChar_isDigit _)
    (digitChar_isDigit _) (digitChar_isDigit _) (digitChar_isDigit _)
    (digitChar_isDigit _) (digitChar_isDigit _) (digitChar_isDigit _)
    (digitChar_isDigit _) (digitChar_isDigit _) (digitChar_isDigit _)

theorem isIso8601_year4 (a b c d : Char) (tail : List Char)
    (ha : a.isDigit = true) (hb : b.isDigit = true) (hc : c.isDigit = true)
    (hd : d.isDigit = true) (hne : ¬ a = '+') (htail : isoTail tail = true) :
    isIso8601 (String.mk (a :: b :: c :: d :: tail)) = true := by
  simp only [isIso8601, String.toList, List.head?_cons, Option.some.injEq, hne,
    if_false, List.take_succ_cons, List.take_zero, List.all_cons, List.all_nil,
    ha, hb, hc, hd, Bool.and_true, List.drop_succ_cons, List.drop_zero, htail]

theorem isIso8601_year6 (a b c d e f : Char) (tail : List Char)
    (ha : a.isDigit = true) (hb : b.isDigit = true) (hc : c.isDigit = true)
    (hd : d.isDigit = true) (he : e.isDigit = true) (hf : f.isDigit = true)
    (htail : isoTail tail = true) :
    isIso8601 (String.mk ('+' :: a :: b :: c :: d :: e :: f :: tail)) = true := by
  simp only [isIso8601, String.toList, List.head?_cons, if_true,
    List.take_succ_cons, List.take_zero, List.all_cons, List.all_nil,
    ha, hb, hc, hd, he, hf, Bool.and_true, List.drop_succ_cons, List.drop_zero, htail]

theorem isIso8601_toISOString (t : Nat) : isIso8601 (toISOString t) = true := by
  unfold toISOString isoChars yearText
  dsimp only
  split
  · exact isIso8601_year4 _ _ _ _ _ (digitChar_isDigit _) (digitChar_isDigit _)
      (digitChar_isDigit _) (digitChar_isDigit _) (digitChar_ne_plus _)
      (isoTail_monthToZone _ _ _)
  · exact isIso8601_year6 _ _ _ _ _ _ _ (digitChar_isDigit _) (digitChar_isDigit _)
      (digitChar_isDigit _) (digitChar_isDigit _) (digitChar_isDigit _)
      (digitChar_isDigit _) (isoTail_monthToZone _ _ _)


/-! ## Equality of values -/

mutual
theorem JsVal.eq_of_beq : ∀ a b : JsVal, JsVal.beq a b = true → a = b
  | .undefined, b => by cases b <;> simp [JsVal.beq]
  | .null, b => by cases b <;> simp [JsVal.beq]
  | .bool a, b => by cases b <;> simp [JsVal.beq]
  | .num a, b => by cases b <;> simp [JsVal.beq]
  | .str a, b => by cases b <;> simp [JsVal.beq]
  | .arr a, b => by
    cases b <;> simp [JsVal.beq]
    exact JsVal.eq_of_beqList a _
  | .obj a, b => by
    cases b <;> simp [JsVal.beq]
    exact JsVal.eq_of_beqProps a _
theorem JsVal.eq_of_beqList : ∀ a b : List JsVal, JsVal.beqList a b = true → a = b
  | [], b => by cases b <;> simp [JsVal.beqList]
  | x :: xs, b => by
    cases b with
    | nil => simp [JsVal.beqList]
    | cons y ys =>
      simp only [JsVal.beqList, Bool.and_eq_true]
      rintro ⟨h1, h2⟩
      rw [JsVal.eq_of_beq x y h1, JsVal.eq_of_beqList xs ys h2]
theorem JsVal.eq_of_beqProps :
    ∀ a b : List (String × JsVal), JsVal.beqProps a b = true → a = b
  | [], b => by cases b <;> simp [JsVal.beqProps]
  | (k, x) :: xs, b => by
    cases b with
    | nil => simp [JsVal.beqProps]
    | cons y ys =>
      obtain ⟨l, y⟩ := y
      simp only [JsVal.beqProps, Bool.and_eq_true, beq_iff_eq]
      rintro ⟨⟨h0, h1⟩, h2⟩
      rw [h0, JsVal.eq_of_beq x y h1, JsVal.eq_of_beqProps xs ys h2]
end

mutual
theorem JsVal.beq_self : ∀ a : JsVal, JsVal.beq a a = true
  | .undefined => rfl
  | .null => rfl
  | .bool a => by simp [JsVal.beq]
  | .num a => by simp [JsVal.beq]
  | .str a => by simp [JsVal.beq]
  | .arr a => by
    simp only [JsVal.beq]
    exact JsVal.beqList_self a
  | .obj a => by
    simp only [JsVal.beq]
    exact JsVal.beqProps_self a
theorem JsVal.beqList_self : ∀ a : List JsVal, JsVal.beqList a a = true
  | [] => rfl
  | x :: xs => by
    simp only [JsVal.beqList, Bool.and_eq_true]
    exact ⟨JsVal.beq_self x, JsVal.beqList_self xs⟩
theorem JsVal.beqProps_self : ∀ a : List (String × JsVal), JsVal.beqProps a a = true
  | [] => rfl
  | (k, x) :: xs => by
    simp only [JsVal.beqProps, Bool.and_eq_true, beq_self_eq_true, true_and]
    exact ⟨JsVal.beq_self x, JsVal.beqProps_self xs⟩
end

theorem JsVal.beq_iff (a b : JsVal) : JsVal.beq a b = true ↔ a = b :=
  ⟨JsVal.eq_of_beq a b, fun h => h ▸ JsVal.beq_self a⟩

theorem equalsOrContains_iff (x v : JsVal) :
    equalsOrContains x v = true ↔ isOrHasElement x v := by
  unfold equalsOrContains isOrHasElement
  rw [Bool.or_eq_true, JsVal.beq_iff]
  apply or_congr Iff.rfl
  cases v with
  | arr items =>
    simp only [hasElement, List.any_eq_true, JsVal.beq_iff]
    constructor
    · rintro ⟨item, hmem, rfl⟩
      exact hmem
    · intro h
      exact ⟨x, h, rfl⟩
  | _ => simp [hasElement]

/-! ## The patterns without metacharacters -/

theorem plainChar_ne_dot (c : Char) (h : plainChar c = true) : c ≠ '.' := by
  rintro rfl
  revert h
  decide

theorem plainChar_ne_bar (c : Char) (h : plainChar c = true) : c ≠ '|' := by
  rintro rfl
  revert h
  decide

theorem atomOf_plain (c : Char) (h : plainChar c = true) : atomOf c = some (Atom.lit c) := by
  have hm : metaChars.contains c = false := by
    simp only [plainChar, Bool.and_eq_true, Bool.not_eq_true'] at h
    exact h.1
  simp only [atomOf, if_neg (plainChar_ne_dot c h), hm, Bool.false_eq_true, if_false]

theorem compileChars_alternatives (cs : List Char)
    (h : cs.all (fun c => c == '|' || plainChar c) = true) :
    compileChars cs = some ((alternatives cs).map (List.map Atom.lit)) := by
  induction cs with
  | nil => rfl
  | cons c cs ih =>
    simp only [List.all_cons, Bool.and_eq_true, Bool.or_eq_true, beq_iff_eq] at h
    simp only [compileChars, ih h.2, alternatives]
    by_cases hc : c = '|'
    · simp [hc]
    · have hp : plainChar c = true := h.1.resolve_left hc
      simp only [hc, if_false, atomOf_plain c hp]
      cases alternatives cs <;> simp

theorem alternatives_plain (cs : List Char) (h : cs.all plainChar = true) :
    alternatives cs = [cs] := by
  induction cs with
  | nil => rfl
  | cons c cs ih =>
    simp only [List.all_cons, Bool.and_eq_true] at h
    simp [alternatives, plainChar_ne_bar c h.1, ih h.2]

theorem no_null_of_alternativesPattern (q : String) (h : alternativesPattern q = true) :
    q.toList.contains (Char.ofNat 0) = false := by
  unfold alternativesPattern at h
  rw [List.all_eq_true] at h
  by_contra hcon
  have hmem : Char.ofNat 0 ∈ q.toList := by simpa using hcon
  have := h _ hmem
  revert this
  decide

theorem alternativesPattern_of_plain (q : String) (h : plainPattern q = true) :
    alternativesPattern q = true := by
  unfold plainPattern at h
  unfold alternativesPattern
  rw [List.all_eq_true] at h ⊢
  intro c hc
  simp [h c hc]

theorem matchAt_lit (fold : Char → Char) (q : List Char) :
    ∀ cs : List Char,
      matchAt fold (q.map Atom.lit) cs = true ↔ q.map fold <+: cs.map fold := by
  induction q with
  | nil => intro cs; simp [matchAt]
  | cons p ps ih =>
    intro cs
    cases cs with
    | nil => simp [matchAt]
    | cons c cs =>
      simp only [List.map_cons, matchAt, atomAccepts, Bool.and_eq_true, beq_iff_eq, ih cs,
        List.cons_prefix_cons]

theorem regexSearch_lit (fold : Char → Char) (q : List Char) :
    ∀ cs : List Char,
      regexSearch fold (q.map Atom.lit) cs = true ↔ q.map fold <:+: cs.map fold := by
  intro cs
  induction cs with
  | nil =>
    simp only [regexSearch, matchAt_lit, List.map_nil, List.prefix_nil, List.infix_nil]
  | cons c cs ih =>
    simp only [regexSearch, Bool.or_eq_true, matchAt_lit, ih, List.map_cons,
      List.infix_cons_iff]

theorem compilePattern_alternatives (E : Engine) (q : String)
    (h : alternativesPattern q = true) :
    compilePattern E q = .ok fun subject =>
      ((alternatives q.toList).map (List.map Atom.lit)).any fun atoms =>
        regexSearch E.fold atoms subject := by
  unfold compilePattern
  rw [no_null_of_alternativesPattern q h]
  simp only [Bool.false_eq_true, if_false, compileChars_alternatives q.toList h]

theorem regexMatchesValue_alternatives (fold : Char → Char) (alts : List (List Char))
    (v : JsVal) :
    regexMatchesValue (fun subject =>
      (alts.map (List.map Atom.lit)).any fun atoms => regexSearch fold atoms subject) v
        = true ↔
      ∃ alt ∈ alts, valueContains fold (String.mk alt) v := by
  have hstr : ∀ s : String,
      ((alts.map (List.map Atom.lit)).any fun atoms => regexSearch fold atoms s.toList)
        = true ↔ ∃ alt ∈ alts, containsIgnoreCase fold (String.mk alt) s := by
    intro s
    simp only [List.any_eq_true, List.mem_map]
    constructor
    · rintro ⟨atoms, ⟨alt, halt, rfl⟩, hs⟩
      exact ⟨alt, halt, (regexSearch_lit fold alt s.toList).1 hs⟩
    · rintro ⟨alt, halt, hs⟩
      exact ⟨_, ⟨alt, halt, rfl⟩, (regexSearch_lit fold alt s.toList).2 hs⟩
  cases v with
  | str s => exact hstr s
  | arr items =>
    simp only [regexMatchesValue, valueContains, List.any_eq_true]
    constructor
    · rintro ⟨item, hmem, hitem⟩
      cases item with
      | str s =>
        obtain ⟨alt, halt, hs⟩ := (hstr s).1 hitem
        exact ⟨alt, halt, s, hmem, hs⟩
      | _ => simp at hitem
    · rintro ⟨alt, halt, s, hmem, hs⟩
      exact ⟨_, hmem, (hstr s).2 ⟨alt, halt, hs⟩⟩
  | _ => simp [regexMatchesValue, valueContains]

theorem supplied_str (q : String) (hq : q ≠ "") : supplied (.str q) = some (.str q) := by
  simp [supplied, truthy, hq]

theorem regexCond_alternatives (E : Engine) (q : String) (hq : q ≠ "")
    (h : alternativesPattern q = true) :
    ∃ f : JsVal → Bool,
      regexCond E (supplied (.str q)) = .ok f ∧
      ∀ v, f v = true ↔
        ∃ alt ∈ alternatives q.toList, valueContains E.fold (String.mk alt) v := by
  refine ⟨_, ?_, regexMatchesValue_alternatives E.fold (alternatives q.toList)⟩
  rw [supplied_str q hq]
  simp only [regexCond, compilePattern_alternatives E q h]
  rfl

theorem regexCond_plain (E : Engine) (q : String) (hq : q ≠ "")
    (h : plainPattern q = true) :
    ∃ f : JsVal → Bool,
      regexCond E (supplied (.str q)) = .ok f ∧
      ∀ v, f v = true ↔ valueContains E.fold q v := by
  obtain ⟨f, hf, hf'⟩ := regexCond_alternatives E q hq (alternativesPattern_of_plain q h)
  refine ⟨f, hf, fun v => ?_⟩
  rw [hf' v, alternatives_plain q.toList h]
  simp only [List.mem_singleton, exists_eq_left]
  exact Iff.rfl


theorem positionCond_value (E : Engine) (x : JsVal) (ht : truthy x = true)
    (hno : ∀ props, x ≠ .obj props) :
    positionCond E (supplied x) = .ok (equalsOrContains x) := by
  have hs : supplied x = some x := by simp [supplied, ht]
  rw [hs]
  cases x with
  | obj props => exact absurd rfl (hno props)
  | _ => rfl

theorem positionCond_ne (E : Engine) (x : String) :
    positionCond E (supplied (.obj [("$ne", .str x)])) =
      .ok fun v => !equalsOrContains (.str x) v := rfl

theorem cond_of_falsy (E : Engine) (v : JsVal) (h : truthy v = false) :
    regexCond E (supplied v) = .ok (fun _ => true) ∧
    positionCond E (supplied v) = .ok (fun _ => true) := by
  have hs : supplied v = none := by simp [supplied, h]
  rw [hs]
  exact ⟨rfl, rfl⟩

/-! ## The claims on the list handler -/

/-- C5 fails as stated: while the `collection` variable is unset, and also
when the find fails on a collection that holds a record, the list handler
with no query parameters answers 500, not 200 with the records. -/
theorem no_params_unset_collection_counterexample :
    getCompanies exampleEngine none none ⟨.undefined, .undefined, .undefined⟩ =
      ⟨500, .obj [("message", .str "An unexpected error occurred")]⟩ ∧
    (getCompanies exampleEngine none none
      ⟨.undefined, .undefined, .undefined⟩).status ≠ 200 ∧
    getCompanies exampleEngine (some ⟨"connection closed"⟩)
        (some [⟨⟨"65f0a1"⟩, .str "Acme", .str "US", .str "", .arr [], 10⟩])
        ⟨.undefined, .undefined, .undefined⟩ =
      ⟨500, .obj [("message", .str "An unexpected error occurred")]⟩ :=
  ⟨rfl, by decide, rfl⟩

/-- C5, amended: in every store state in which the `collection` variable is
set and the find does not fail, the list handler with no query parameters
builds the empty filter and answers 200 with an array that has one element
for each record of a rearrangement of the whole collection (every stored
record exactly once), the element carrying the fields of its record, ordered
by `dateAdded` descending: each record's `dateAdded` is greater than or equal
to that of every record after it.  A parameter that is absent puts no key in
the filter, and a filter without a key accepts every value of that field. -/
theorem getCompanies_no_params_all_sorted (E : Engine) (fault : Option JsError)
    (collection : Option (List Doc)) (docs : List Doc)
    (hcoll : collection = some docs) (hfault : fault = none) :
    buildQuery ⟨.undefined, .undefined, .undefined⟩ = Query.empty ∧
    (∃ companies : List Doc,
      companies.Perm docs ∧
      companies.Pairwise (fun a b => b.dateAdded ≤ a.dateAdded) ∧
      getCompanies E fault collection ⟨.undefined, .undefined, .undefined⟩ =
        ⟨200, .arr (companies.map fun d =>
          .obj [("_id", .str d._id.toString),
                ("companyName", d.companyName),
                ("country", d.country),
                ("companyWebsite", d.companyWebsite),
                ("availablePositions", d.availablePositions),
                ("dateAdded", .str (toISOString d.dateAdded))])⟩) ∧
    (∀ rq : ReqQuery,
      (rq.company = .undefined → (buildQuery rq).companyName = none) ∧
      (rq.country = .undefined → (buildQuery rq).country = none) ∧
      (rq.position = .undefined → (buildQuery rq).availablePositions = none)) ∧
    regexCond E none = .ok (fun _ => true) ∧
    positionCond E none = .ok (fun _ => true) := by
  subst hcoll hfault
  refine ⟨rfl, ⟨E.sort docs, E.sort_perm docs, E.sort_sorted docs, ?_⟩, ?_, rfl, rfl⟩
  · rw [getCompanies_no_filter]
    rfl
  · intro rq
    refine ⟨?_, ?_, ?_⟩ <;> intro h <;> simp [buildQuery, supplied, h, truthy]

/-- The theorem of C5 at a collection of two records, the older one inserted
first: the response lists the newer one first. -/
theorem getCompanies_no_params_all_sorted_witness :
    (∃ companies : List Doc,
      companies.Perm
        [⟨⟨"65f0a1"⟩, .str "Acme", .str "USA", .str "", .arr [], 10⟩,
          ⟨⟨"65f0a2"⟩, .str "Maple", .str "Canada", .str "", .arr [], 20⟩] ∧
      companies.Pairwise (fun a b => b.dateAdded ≤ a.dateAdded) ∧
      getCompanies exampleEngine none
        (some [⟨⟨"65f0a1"⟩, .str "Acme", .str "USA", .str "", .arr [], 10⟩,
          ⟨⟨"65f0a2"⟩, .str "Maple", .str "Canada", .str "", .arr [], 20⟩])
        ⟨.undefined, .undefined, .undefined⟩ =
        ⟨200, .arr (companies.map fun d =>
          .obj [("_id", .str d._id.toString),
                ("companyName", d.companyName),
                ("country", d.country),
                ("companyWebsite", d.companyWebsite),
                ("availablePositions", d.availablePositions),
                ("dateAdded", .str (toISOString d.dateAdded))])⟩) ∧
    getCompanies exampleEngine none
        (some [⟨⟨"65f0a1"⟩, .str "Acme", .str "USA", .str "", .arr [], 10⟩,
          ⟨⟨"65f0a2"⟩, .str "Maple", .str "Canada", .str "", .arr [], 20⟩])
        ⟨.undefined, .undefined, .undefined⟩ =
      ⟨200, .arr
        [.obj [("_id", .str "65f0a2"), ("companyName", .str "Maple"),
            ("country", .str "Canada"), ("companyWebsite", .str ""),
            ("availablePositions", .arr []),
            ("dateAdded", .str "1970-01-01T00:00:00.020Z")],
          .obj [("_id", .str "65f0a1"), ("companyName", .str "Acme"),
            ("country", .str "USA"), ("companyWebsite", .str ""),
            ("availablePositions", .arr []),
            ("dateAdded", .str "1970-01-01T00:00:00.010Z")]]⟩ :=
  ⟨(getCompanies_no_params_all_sorted exampleEngine none
      (some [⟨⟨"65f0a1"⟩, .str "Acme", .str "USA", .str "", .arr [], 10⟩,
        ⟨⟨"65f0a2"⟩, .str "Maple", .str "Canada", .str "", .arr [], 20⟩])
      [⟨⟨"65f0a1"⟩, .str "Acme", .str "USA", .str "", .arr [], 10⟩,
        ⟨⟨"65f0a2"⟩, .str "Maple", .str "Canada", .str "", .arr [], 20⟩]
      rfl rfl).2.1,
    rfl⟩

/-- C6 fails as stated: the element of the response for a stored record has
no field `id`; the identifier is carried under `_id`. -/
theorem response_has_no_id_field_counterexample :
    ∃ e : JsVal,
      getCompanies exampleEngine none
        (some [⟨⟨"65f0a1"⟩, .str "Acme", .str "US", .str "", .arr [], 0⟩])
        ⟨.undefined, .undefined, .undefined⟩ = ⟨200, .arr [e]⟩ ∧
      e.prop "id" = .undefined ∧ e.prop "id" ≠ .str "65f0a1" ∧
      e.prop "_id" = .str "65f0a1" := by
  refine ⟨formatCompany ⟨⟨"65f0a1"⟩, .str "Acme", .str "US", .str "", .arr [], 0⟩,
    rfl, rfl, ?_, rfl⟩
  have h : (formatCompany ⟨⟨"65f0a1"⟩, .str "Acme", .str "US", .str "", .arr [], 0⟩).prop
      "id" = .undefined := rfl
  rw [h]
  exact fun hh => JsVal.noConfusion hh

/-- C6, amended: on a working store the response array is the image, element
by element, of the store's result (same length, same order); the element for
a record carries the record's identifier as a plain string under the field
`_id` and its `dateAdded` as ISO-8601 text, and every other stored field
unchanged. -/
theorem getCompanies_formats_each_record (E : Engine) (docs : List Doc) (rq : ReqQuery) :
    getCompanies E none (some docs) rq =
      (match findSorted E (buildQuery rq) docs with
        | .ok companies => ⟨200, .arr (companies.map formatCompany)⟩
        | .error _ => unexpectedError) ∧
    (∀ companies : List Doc,
      (companies.map formatCompany).length = companies.length ∧
      ∀ (i : Nat) (h : i < companies.length),
        (companies.map formatCompany)[i]? = some (formatCompany (companies.get ⟨i, h⟩))) ∧
    (∀ d : Doc,
      formatCompany d =
        .obj [("_id", .str d._id.toString),
              ("companyName", d.companyName),
              ("country", d.country),
              ("companyWebsite", d.companyWebsite),
              ("availablePositions", d.availablePositions),
              ("dateAdded", .str (toISOString d.dateAdded))] ∧
      (formatCompany d).prop "_id" = .str d._id.toString ∧
      (formatCompany d).prop "dateAdded" = .str (toISOString d.dateAdded) ∧
      isIso8601 (toISOString d.dateAdded) = true ∧
      (formatCompany d).prop "companyName" = d.companyName ∧
      (formatCompany d).prop "country" = d.country ∧
      (formatCompany d).prop "companyWebsite" = d.companyWebsite ∧
      (formatCompany d).prop "availablePositions" = d.availablePositions) := by
  refine ⟨getCompanies_working E docs rq, ?_, ?_⟩
  · intro companies
    refine ⟨List.length_map _ _, ?_⟩
    intro i h
    simp [List.getElem?_map, List.getElem?_eq_getElem h]
  · intro d
    exact ⟨rfl, rfl, rfl, isIso8601_toISOString _, rfl, rfl, rfl, rfl⟩

/-- C2 fails as stated: the body below submits the empty string as
`availablePositions`; the create answers 201 and the following list returns
one record, whose `availablePositions` is the empty sequence and not the
value submitted. -/
theorem roundtrip_positions_counterexample :
    List.lookup "availablePositions" [("companyName", JsVal.str "Acme"),
      ("country", JsVal.str "US"), ("availablePositions", JsVal.str "")] =
        some (JsVal.str "") ∧
    (addCompany 0 ⟨"65f0a1"⟩ none (some [])
      [("companyName", .str "Acme"), ("country", .str "US"),
        ("availablePositions", .str "")]).1.status = 201 ∧
    ∃ e : JsVal,
      getCompanies exampleEngine none
        (addCompany 0 ⟨"65f0a1"⟩ none (some [])
          [("companyName", .str "Acme"), ("country", .str "US"),
            ("availablePositions", .str "")]).2
        ⟨.undefined, .undefined, .undefined⟩ = ⟨200, .arr [e]⟩ ∧
      e.prop "availablePositions" = .arr [] ∧
      e.prop "availablePositions" ≠ .str "" := by
  refine ⟨rfl, rfl,
    formatCompany ⟨⟨"65f0a1"⟩, .str "Acme", .str "US", .str "", .arr [], 0⟩,
    rfl, rfl, ?_⟩
  have h : (formatCompany ⟨⟨"65f0a1"⟩, .str "Acme", .str "US", .str "", .arr [], 0⟩).prop
      "availablePositions" = .arr [] := rfl
  rw [h]
  exact fun hh => JsVal.noConfusion hh

/-- C2, amended: for every body with truthy `companyName` and `country` and
every store state in which the insert succeeds, the create answers 201, and a
following list with no query parameters answers 200 with an array that
contains a record whose `companyName` and `country` equal the ones submitted
and whose `companyWebsite` and `availablePositions` equal the ones submitted
when those are truthy, and are the empty string and the empty sequence
otherwise. -/
theorem create_then_list_roundtrip (E : Engine) (now : Nat) (oid : ObjectId)
    (fault : Option JsError) (docs : List Doc) (data : Body)
    (r : List Doc × ObjectId)
    (hn : truthy (getProp data "companyName") = true)
    (hc : truthy (getProp data "country") = true)
    (hins : insertOne oid fault docs (companyDoc now data) = .ok r) :
    (addCompany now oid fault (some docs) data).1.status = 201 ∧
    ∃ out : List JsVal,
      getCompanies E none (addCompany now oid fault (some docs) data).2
        ⟨.undefined, .undefined, .undefined⟩ = ⟨200, .arr out⟩ ∧
      ∃ e ∈ out,
        e.prop "companyName" = getProp data "companyName" ∧
        e.prop "country" = getProp data "country" ∧
        e.prop "companyWebsite" =
          (if truthy (getProp data "companyWebsite") then getProp data "companyWebsite"
            else .str "") ∧
        e.prop "availablePositions" =
          (if truthy (getProp data "availablePositions") then
            getProp data "availablePositions"
          else .arr []) := by
  have e₁ : addCompany now oid fault (some docs) data = (created, some r.1) := by
    rw [addCompany_of_truthy _ _ _ _ _ hn hc]
    simp only [collectionInsertOne, hins]
  obtain ⟨-, -, hr⟩ := (insertOne_ok_iff _ _ _ _ _).1 hins
  rw [e₁]
  refine ⟨rfl, _, getCompanies_no_filter E r.1, ?_⟩
  refine ⟨formatCompany (Doc.ofCompanyDoc oid (companyDoc now data)), ?_, rfl, rfl, rfl, rfl⟩
  apply List.mem_map_of_mem
  rw [(E.sort_perm r.1).mem_iff, hr]
  simp

/-- The theorem of C2 at the empty collection and a body with the two required
fields only. -/
theorem create_then_list_roundtrip_witness :
    (addCompany 7 ⟨"65f0a1"⟩ none (some [])
      [("companyName", .str "Acme"), ("country", .str "US")]).1.status = 201 ∧
    ∃ out : List JsVal,
      getCompanies exampleEngine none (addCompany 7 ⟨"65f0a1"⟩ none (some [])
        [("companyName", .str "Acme"), ("country", .str "US")]).2
        ⟨.undefined, .undefined, .undefined⟩ = ⟨200, .arr out⟩ ∧
      ∃ e ∈ out,
        e.prop "companyName" =
          getProp [("companyName", .str "Acme"), ("country", .str "US")] "companyName" ∧
        e.prop "country" =
          getProp [("companyName", .str "Acme"), ("country", .str "US")] "country" ∧
        e.prop "companyWebsite" =
          (if truthy (getProp [("companyName", .str "Acme"), ("country", .str "US")]
              "companyWebsite") then
            getProp [("companyName", .str "Acme"), ("country", .str "US")] "companyWebsite"
            else .str "") ∧
        e.prop "availablePositions" =
          (if truthy (getProp [("companyName", .str "Acme"), ("country", .str "US")]
              "availablePositions") then
            getProp [("companyName", .str "Acme"), ("country", .str "US")]
              "availablePositions"
          else .arr []) :=
  create_then_list_roundtrip exampleEngine 7 ⟨"65f0a1"⟩ none []
    [("companyName", .str "Acme"), ("country", .str "US")]
    ([Doc.ofCompanyDoc ⟨"65f0a1"⟩
        (companyDoc 7 [("companyName", .str "Acme"), ("country", .str "US")])],
      ⟨"65f0a1"⟩)
    rfl rfl rfl


/-- C3 fails as stated: with records in "USA" and "Canada", the parameter
`country=u.a` returns the USA record, although "USA" does not contain the
text "u.a" in any letter case: the store reads the parameter as a pattern,
in which the dot stands for any character.  A record created with the
sequence `["Acme"]` as `companyName` is returned for `company=acme`, although
its `companyName` is not a text at all.  And for a parameter with a null
character, which the store rejects as a pattern, the answer is 500 although a
record contains the parameter. -/
theorem regex_dot_counterexample :
    (∃ d : Doc,
      getCompanies exampleEngine none
        (some [⟨⟨"65f0a1"⟩, .str "Acme", .str "USA", .str "", .arr [], 10⟩,
          ⟨⟨"65f0a2"⟩, .str "Maple", .str "Canada", .str "", .arr [], 20⟩])
        ⟨.undefined, .str "u.a", .undefined⟩ = ⟨200, .arr [formatCompany d]⟩ ∧
      d.country = .str "USA" ∧ ¬ containsIgnoreCase exampleEngine.fold "u.a" "USA") ∧
    (∃ d : Doc,
      (addCompany 0 ⟨"65f0a1"⟩ none (some [])
        [("companyName", .arr [.str "Acme"]), ("country", .str "US")]).2 = some [d] ∧
      getCompanies exampleEngine none (some [d]) ⟨.str "acme", .undefined, .undefined⟩ =
        ⟨200, .arr [formatCompany d]⟩ ∧
      d.companyName = .arr [.str "Acme"]) ∧
    (getCompanies exampleEngine none
        (some [⟨⟨"65f0a1"⟩, .str "a\x00b", .str "US", .str "", .arr [], 10⟩])
        ⟨.str "\x00", .undefined, .undefined⟩ = unexpectedError ∧
      containsIgnoreCase exampleEngine.fold "\x00" "a\x00b") :=
  ⟨⟨⟨⟨"65f0a1"⟩, .str "Acme", .str "USA", .str "", .arr [], 10⟩, rfl, rfl, by decide⟩,
    ⟨⟨⟨"65f0a1"⟩, .arr [.str "Acme"], .str "US", .str "", .arr [], 0⟩, rfl, rfl, rfl⟩,
    ⟨rfl, by decide⟩⟩

/-- C3, amended: for every non-empty `q` without pattern metacharacters and
without a null character, given as the `company` parameter (and likewise as
`country`), the list handler on a working store answers 200 with the
elements, ordered by `dateAdded` descending, of exactly the stored records
whose `companyName` (respectively `country`) is a string that contains `q` as
a substring when letter case is ignored, or a sequence with such a string as
an element; every other record is excluded. -/
theorem plain_pattern_is_substring_filter (E : Engine) (docs : List Doc) (q : String)
    (hq : q ≠ "") (hplain : plainPattern q = true) :
    (∃ (p : Doc → Bool) (companies : List Doc),
      (∀ d, p d = true ↔ valueContains E.fold q d.companyName) ∧
      (∀ d s, d.companyName = .str s → (p d = true ↔ containsIgnoreCase E.fold q s)) ∧
      companies.Perm (docs.filter p) ∧
      companies.Pairwise (fun a b => b.dateAdded ≤ a.dateAdded) ∧
      getCompanies E none (some docs) ⟨.str q, .undefined, .undefined⟩ =
        ⟨200, .arr (companies.map fun d =>
          .obj [("_id", .str d._id.toString),
                ("companyName", d.companyName),
                ("country", d.country),
                ("companyWebsite", d.companyWebsite),
                ("availablePositions", d.availablePositions),
                ("dateAdded", .str (toISOString d.dateAdded))])⟩) ∧
    (∃ (p : Doc → Bool) (companies : List Doc),
      (∀ d, p d = true ↔ valueContains E.fold q d.country) ∧
      (∀ d s, d.country = .str s → (p d = true ↔ containsIgnoreCase E.fold q s)) ∧
      companies.Perm (docs.filter p) ∧
      companies.Pairwise (fun a b => b.dateAdded ≤ a.dateAdded) ∧
      getCompanies E none (some docs) ⟨.undefined, .str q, .undefined⟩ =
        ⟨200, .arr (companies.map fun d =>
          .obj [("_id", .str d._id.toString),
                ("companyName", d.companyName),
                ("country", d.country),
                ("companyWebsite", d.companyWebsite),
                ("availablePositions", d.availablePositions),
                ("dateAdded", .str (toISOString d.dateAdded))])⟩) := by
  obtain ⟨f, hf, hf'⟩ := regexCond_plain E q hq hplain
  have hU := cond_of_falsy E .undefined rfl
  constructor
  · refine ⟨_, _, ?_, ?_, E.sort_perm _, E.sort_sorted _,
      getCompanies_of_conds E docs ⟨.str q, .undefined, .undefined⟩ f _ _ hf hU.1 hU.2⟩
    · intro d
      simp only [Bool.and_true, hf']
    · intro d s hs
      simp only [Bool.and_true, hf', hs]
      exact Iff.rfl
  · refine ⟨_, _, ?_, ?_, E.sort_perm _, E.sort_sorted _,
      getCompanies_of_conds E docs ⟨.undefined, .str q, .undefined⟩ _ f _ hU.1 hf hU.2⟩
    · intro d
      simp only [Bool.and_true, Bool.true_and, hf']
    · intro d s hs
      simp only [Bool.and_true, Bool.true_and, hf', hs]
      exact Iff.rfl

/-- The theorem of C3 at records in "USA" and "Canada" and the parameter
`country=usa`, which returns the USA record only. -/
theorem plain_pattern_is_substring_filter_witness :
    ("usa" ≠ "" ∧ plainPattern "usa" = true) ∧
    (∃ (p : Doc → Bool) (companies : List Doc),
      (∀ d, p d = true ↔ valueContains exampleEngine.fold "usa" d.country) ∧
      (∀ d s, d.country = .str s →
        (p d = true ↔ containsIgnoreCase exampleEngine.fold "usa" s)) ∧
      companies.Perm
        ([⟨⟨"65f0a1"⟩, .str "Acme", .str "USA", .str "", .arr [], 10⟩,
          ⟨⟨"65f0a2"⟩, .str "Maple", .str "Canada", .str "", .arr [], 20⟩].filter p) ∧
      companies.Pairwise (fun a b => b.dateAdded ≤ a.dateAdded) ∧
      getCompanies exampleEngine none
        (some [⟨⟨"65f0a1"⟩, .str "Acme", .str "USA", .str "", .arr [], 10⟩,
          ⟨⟨"65f0a2"⟩, .str "Maple", .str "Canada", .str "", .arr [], 20⟩])
        ⟨.undefined, .str "usa", .undefined⟩ =
        ⟨200, .arr (companies.map fun d =>
          .obj [("_id", .str d._id.toString),
                ("companyName", d.companyName),
                ("country", d.country),
                ("companyWebsite", d.companyWebsite),
                ("availablePositions", d.availablePositions),
                ("dateAdded", .str (toISOString d.dateAdded))])⟩) ∧
    getCompanies exampleEngine none
        (some [⟨⟨"65f0a1"⟩, .str "Acme", .str "USA", .str "", .arr [], 10⟩,
          ⟨⟨"65f0a2"⟩, .str "Maple", .str "Canada", .str "", .arr [], 20⟩])
        ⟨.undefined, .str "usa", .undefined⟩ =
      ⟨200, .arr
        [.obj [("_id", .str "65f0a1"), ("companyName", .str "Acme"),
          ("country", .str "USA"), ("companyWebsite", .str ""),
          ("availablePositions", .arr []),
          ("dateAdded", .str "1970-01-01T00:00:00.010Z")]]⟩ :=
  ⟨⟨by decide, rfl⟩,
    (plain_pattern_is_substring_filter exampleEngine
      [⟨⟨"65f0a1"⟩, .str "Acme", .str "USA", .str "", .arr [], 10⟩,
        ⟨⟨"65f0a2"⟩, .str "Maple", .str "Canada", .str "", .arr [], 20⟩]
      "usa" (by decide) rfl).2,
    rfl⟩

/-- C4 fails as stated.  A create whose body gives the string "dev" as
`availablePositions` stores it as given, and the list with `position=dev`
returns that record, whose `availablePositions` is not a sequence that has
"dev" as an element.  The one parameter `company=acme|maple` returns the
records of `company=acme` together with those of `company=maple`, an OR.  The
bracketed parameter `position[$ne]=Dev` returns the records that
`position=Dev` does not return, a negation.  And the repeated parameter
`position=Dev&position=Ops` returns the record whose `availablePositions` is
that sequence, which does not have the sequence as an element; with the
repeated parameter `company=acme&company=maple` beside `position=Dev` the
store rejects the condition on `companyName` and the answer is 500. -/
theorem position_scalar_counterexample :
    (∃ d : Doc,
      (addCompany 0 ⟨"65f0a1"⟩ none (some [])
        [("companyName", .str "Acme"), ("country", .str "US"),
          ("availablePositions", .str "dev")]).2 = some [d] ∧
      getCompanies exampleEngine none (some [d]) ⟨.undefined, .undefined, .str "dev"⟩ =
        ⟨200, .arr [formatCompany d]⟩ ∧
      ¬ hasElement (.str "dev") d.availablePositions) ∧
    (∃ acme maple globex : Doc,
      acme = ⟨⟨"65f0a1"⟩, .str "Acme", .str "US", .str "", .arr [.str "Dev"], 10⟩ ∧
      maple = ⟨⟨"65f0a2"⟩, .str "Maple", .str "CA", .str "", .arr [.str "Ops"], 20⟩ ∧
      globex = ⟨⟨"65f0a3"⟩, .str "Globex", .str "UK", .str "",
        .arr [.str "Dev", .str "Ops"], 30⟩ ∧
      getCompanies exampleEngine none (some [acme, maple, globex])
        ⟨.str "acme|maple", .undefined, .undefined⟩ =
          ⟨200, .arr [formatCompany maple, formatCompany acme]⟩ ∧
      getCompanies exampleEngine none (some [acme, maple, globex])
        ⟨.str "acme", .undefined, .undefined⟩ = ⟨200, .arr [formatCompany acme]⟩ ∧
      getCompanies exampleEngine none (some [acme, maple, globex])
        ⟨.str "maple", .undefined, .undefined⟩ = ⟨200, .arr [formatCompany maple]⟩ ∧
      getCompanies exampleEngine none (some [acme, maple, globex])
        ⟨.undefined, .undefined, .str "Dev"⟩ =
          ⟨200, .arr [formatCompany globex, formatCompany acme]⟩ ∧
      getCompanies exampleEngine none (some [acme, maple, globex])
        ⟨.undefined, .undefined, .obj [("$ne", .str "Dev")]⟩ =
          ⟨200, .arr [formatCompany maple]⟩ ∧
      getCompanies exampleEngine none (some [acme, maple, globex])
        ⟨.undefined, .undefined, .arr [.str "Dev", .str "Ops"]⟩ =
          ⟨200, .arr [formatCompany globex]⟩ ∧
      getCompanies exampleEngine none (some [acme, maple, globex])
        ⟨.arr [.str "acme", .str "maple"], .undefined, .str "Dev"⟩ = unexpectedError ∧
      ¬ hasElement (.arr [.str "Dev", .str "Ops"]) globex.availablePositions) := by
  refine ⟨⟨⟨⟨"65f0a1"⟩, .str "Acme", .str "US", .str "", .str "dev", 0⟩, rfl, rfl,
    fun h => h⟩, _, _, _, rfl, rfl, rfl, rfl, rfl, rfl, rfl, rfl, rfl, rfl, ?_⟩
  intro h
  have h' : JsVal.arr [.str "Dev", .str "Ops"] ∈ [JsVal.str "Dev", JsVal.str "Ops"] := h
  simp at h'

/-- C4, amended.  On a working store the list handler answers 500 when the
store rejects one of the supplied conditions and otherwise returns, ordered
by `dateAdded` descending, exactly the records that satisfy every supplied
condition at once: the conditions of the three parameters are conjoined, and
a parameter that is absent or falsy puts no condition.  A truthy `position`
value `x` that is not an object (a non-empty string, or the sequence of a
repeated parameter) is satisfied by the records whose `availablePositions` is
`x` itself or a sequence that has `x` as an exact element, and only such
records are returned; for a string `x` and a record whose
`availablePositions` is a sequence this is exact membership, so an element
that merely contains `x` as a substring does not count.  An object value is
read as an operator expression: `{ $ne: text }` is satisfied by the records
that the equality on the text excludes.  A `company` or `country` pattern
made of texts without other metacharacters separated by `|` is satisfied by
the records whose field contains one of the texts. -/
theorem filters_are_conjoined (E : Engine) (fault : Option JsError)
    (collection : Option (List Doc)) (docs : List Doc) (rq : ReqQuery)
    (hcoll : collection = some docs) (hfault : fault = none) :
    getCompanies E fault collection rq =
      (match regexCond E (supplied rq.company), regexCond E (supplied rq.country),
          positionCond E (supplied rq.position) with
        | .ok f, .ok g, .ok h =>
          ⟨200, .arr ((E.sort (docs.filter fun d =>
              f d.companyName && g d.country && h d.availablePositions)).map fun d =>
            .obj [("_id", .str d._id.toString),
                  ("companyName", d.companyName),
                  ("country", d.country),
                  ("companyWebsite", d.companyWebsite),
                  ("availablePositions", d.availablePositions),
                  ("dateAdded", .str (toISOString d.dateAdded))])⟩
        | _, _, _ => unexpectedError) ∧
    (∀ l : List Doc,
      (E.sort l).Perm l ∧ (E.sort l).Pairwise fun a b => b.dateAdded ≤ a.dateAdded) ∧
    (∀ v : JsVal, truthy v = false →
      regexCond E (supplied v) = .ok (fun _ => true) ∧
      positionCond E (supplied v) = .ok (fun _ => true)) ∧
    (∀ x : JsVal, truthy x = true → (∀ props, x ≠ .obj props) →
      ∃ h : JsVal → Bool, positionCond E (supplied x) = .ok h ∧
        ∀ v, h v = true ↔ (v = x ∨ hasElement x v)) ∧
    (∀ x : JsVal, rq.position = x → truthy x = true → (∀ props, x ≠ .obj props) →
      getCompanies E fault collection rq = unexpectedError ∨
      ∃ companies : List Doc,
        getCompanies E fault collection rq =
          ⟨200, .arr (companies.map fun d =>
            .obj [("_id", .str d._id.toString),
                  ("companyName", d.companyName),
                  ("country", d.country),
                  ("companyWebsite", d.companyWebsite),
                  ("availablePositions", d.availablePositions),
                  ("dateAdded", .str (toISOString d.dateAdded))])⟩ ∧
        ∀ d ∈ companies, d ∈ docs ∧
          (d.availablePositions = x ∨ hasElement x d.availablePositions)) ∧
    (∀ (x : String) (items : List JsVal), x ≠ "" →
      ∃ h : JsVal → Bool, positionCond E (supplied (.str x)) = .ok h ∧
        (h (.arr items) = true ↔ JsVal.str x ∈ items)) ∧
    (∀ x : String,
      ∃ h : JsVal → Bool, positionCond E (supplied (.obj [("$ne", .str x)])) = .ok h ∧
        ∀ v, h v = true ↔ ¬ (v = .str x ∨ hasElement (.str x) v)) ∧
    (∀ q : String, q ≠ "" → alternativesPattern q = true →
      ∃ f : JsVal → Bool, regexCond E (supplied (.str q)) = .ok f ∧
        ∀ v, f v = true ↔
          ∃ alt ∈ alternatives q.toList, valueContains E.fold (String.mk alt) v) := by
  subst hcoll hfault
  have hvalue : ∀ x : JsVal, truthy x = true → (∀ props, x ≠ .obj props) →
      ∃ h : JsVal → Bool, positionCond E (supplied x) = .ok h ∧
        ∀ v, h v = true ↔ (v = x ∨ hasElement x v) := by
    intro x ht hno
    exact ⟨_, positionCond_value E x ht hno, fun v => equalsOrContains_iff x v⟩
  refine ⟨getCompanies_conjunction E docs rq, fun l => ⟨E.sort_perm l, E.sort_sorted l⟩,
    cond_of_falsy E, hvalue, ?_, ?_, ?_, regexCond_alternatives E⟩
  · intro x hpos ht hno
    rw [getCompanies_conjunction, hpos, positionCond_value E x ht hno]
    cases regexCond E (supplied rq.company) with
    | error e => exact Or.inl rfl
    | ok f =>
      cases regexCond E (supplied rq.country) with
      | error e => exact Or.inl rfl
      | ok g =>
        refine Or.inr ⟨_, rfl, ?_⟩
        intro d hd
        rw [(E.sort_perm _).mem_iff, List.mem_filter] at hd
        refine ⟨hd.1, ?_⟩
        have h3 : equalsOrContains x d.availablePositions = true := by
          have := hd.2
          simp only [Bool.and_eq_true] at this
          exact this.2
        exact (equalsOrContains_iff x _).1 h3
  · intro x items hx
    have ht : truthy (.str x) = true := by simp [truthy, hx]
    obtain ⟨h, hh, hh'⟩ := hvalue (.str x) ht (fun props hcon => JsVal.noConfusion hcon)
    refine ⟨h, hh, ?_⟩
    rw [hh']
    simp [hasElement]
  · intro x
    refine ⟨_, positionCond_ne E x, ?_⟩
    intro v
    simp only [Bool.not_eq_true', ← Bool.not_eq_true, equalsOrContains_iff]
    exact Iff.rfl

/-- The theorem of C4 at two records, one with the position "Dev" and one
with "Senior Dev", and the parameters `company=acme` and `position=Dev`:
both records match the company, only the first has the position. -/
theorem filters_are_conjoined_witness :
    getCompanies exampleEngine none
        (some [⟨⟨"65f0a1"⟩, .str "Acme", .str "US", .str "", .arr [.str "Dev"], 10⟩,
          ⟨⟨"65f0a2"⟩, .str "Acme Labs", .str "US", .str "",
            .arr [.str "Senior Dev"], 20⟩])
        ⟨.str "acme", .undefined, .str "Dev"⟩ =
      (match regexCond exampleEngine (supplied (.str "acme")),
          regexCond exampleEngine (supplied .undefined),
          positionCond exampleEngine (supplied (.str "Dev")) with
        | .ok f, .ok g, .ok h =>
          ⟨200, .arr ((exampleEngine.sort
            ([⟨⟨"65f0a1"⟩, .str "Acme", .str "US", .str "", .arr [.str "Dev"], 10⟩,
              ⟨⟨"65f0a2"⟩, .str "Acme Labs", .str "US", .str "",
                .arr [.str "Senior Dev"], 20⟩].filter fun d =>
              f d.companyName && g d.country && h d.availablePositions)).map fun d =>
            .obj [("_id", .str d._id.toString),
                  ("companyName", d.companyName),
                  ("country", d.country),
                  ("companyWebsite", d.companyWebsite),
                  ("availablePositions", d.availablePositions),
                  ("dateAdded", .str (toISOString d.dateAdded))])⟩
        | _, _, _ => unexpectedError) ∧
    getCompanies exampleEngine none
        (some [⟨⟨"65f0a1"⟩, .str "Acme", .str "US", .str "", .arr [.str "Dev"], 10⟩,
          ⟨⟨"65f0a2"⟩, .str "Acme Labs", .str "US", .str "",
            .arr [.str "Senior Dev"], 20⟩])
        ⟨.str "acme", .undefined, .str "Dev"⟩ =
      ⟨200, .arr
        [.obj [("_id", .str "65f0a1"), ("companyName", .str "Acme"),
          ("country", .str "US"), ("companyWebsite", .str ""),
          ("availablePositions", .arr [.str "Dev"]),
          ("dateAdded", .str "1970-01-01T00:00:00.010Z")]]⟩ :=
  ⟨(filters_are_conjoined exampleEngine none
      (some [⟨⟨"65f0a1"⟩, .str "Acme", .str "US", .str "", .arr [.str "Dev"], 10⟩,
        ⟨⟨"65f0a2"⟩, .str "Acme Labs", .str "US", .str "", .arr [.str "Senior Dev"], 20⟩])
      [⟨⟨"65f0a1"⟩, .str "Acme", .str "US", .str "", .arr [.str "Dev"], 10⟩,
        ⟨⟨"65f0a2"⟩, .str "Acme Labs", .str "US", .str "", .arr [.str "Senior Dev"], 20⟩]
      ⟨.str "acme", .undefined, .str "Dev"⟩ rfl rfl).1,
    rfl⟩

end CompaniesBackend
